import Mathlib

/-!
Verification of the `flashback` op-replay tool (`src/replay/src/main.go`)
against its natural-language specification.

The Go program is embedded shallowly:

* mgo errors become the inductive `MgoError`; the executor block becomes a
  function from attempt index to `Option MgoError` (`none` = success, as a
  Go `nil` error).
* `RetryOnSocketFailure` becomes `retryOnSocketFailure`, returning a record
  that carries the final error, the number of block invocations, the number
  of session refreshes and the number of retry notices logged (the Go code
  logs the retry notice unconditionally via `logger.Error`).
* `parseFlags` becomes `parseFlags`, faithful to the control flow, including
  the `maxOps == 0 → 4294967295` replacement and the `return nil` taken when
  `NewLogger` fails.
* the worker closure `fetch` becomes a recursion over the list of values
  pulled from the op channel (`Option Op`, with `none` the nil sentinel),
  threading a state of counters (shared ops-executed increments, exit
  signals, error logs, retry logs).
* the coordinator wait loop in `main` becomes `mainWait`, and the reporter
  goroutine becomes `reporterEvents`, driven by the successive observations
  of the shared counter at its loop condition.
* the reader/dispatcher wiring of `main` becomes `buildPipeline`; the
  behaviours of the external `replay` package (dispatch cap, plain and
  cyclic readers), which are not part of this repository's sources, are
  modelled from the spec where a claim needs them and are marked as such.
-/

namespace Flashback

/-- A recorded operation. Its payload is opaque to the replay core; the
embedding keeps an identifier and the recorded timestamp. -/
structure Op where
  id : Nat
  ts : Int
deriving DecidableEq, Repr

/-- The error values `RetryOnSocketFailure` discriminates on:
`*mgo.QueryError`, `*mgo.LastError`, `mgo.ErrNotFound`, and any other
non-nil error (the catch-all treated as a socket failure). -/
inductive MgoError where
  | queryError (msg : String)
  | lastError (msg : String)
  | errNotFound
  | other (msg : String)
deriving DecidableEq, Repr

/-- The type-switch in `RetryOnSocketFailure`: `*mgo.QueryError`,
`*mgo.LastError` and `mgo.ErrNotFound` are surfaced without retry. -/
def MgoError.isPermanent : MgoError → Bool
  | .queryError _ => true
  | .lastError _ => true
  | .errNotFound => true
  | .other _ => false

/-- Outcome of one `RetryOnSocketFailure` call: the returned error (`none`
for a Go `nil`), how many times the block was invoked, how many times
`session.Refresh()` ran, and how many retry notices were logged. -/
structure RetryOutcome where
  result : Option MgoError
  invocations : Nat
  refreshes : Nat
  retryLogs : Nat
deriving DecidableEq, Repr

/-- `RetryOnSocketFailure` from `main.go`. `block n` is the error returned
by the n-th invocation of the executor block (0-based). The Go code: call
the block; on nil return nil; on `QueryError` / `LastError` / `ErrNotFound`
return the error; otherwise refresh the session, log
"retrying mongo query after error" (unconditionally), and return the
result of a second invocation. -/
def retryOnSocketFailure (block : Nat → Option MgoError) : RetryOutcome :=
  match block 0 with
  | none => ⟨none, 1, 0, 0⟩
  | some e =>
    if e.isPermanent then ⟨some e, 1, 0, 0⟩
    else ⟨block 1, 2, 1, 1⟩

end Flashback

namespace Flashback

/-- Per-worker observable counters of the `fetch` closure in `main`:
how many times this worker performed `atomic.AddInt64(&opsExecuted, 1)`,
how many completion signals it sent on the `exit` channel, how many
per-op errors it logged (`if verbose == true && err != nil`), and how many
retry notices `RetryOnSocketFailure` logged on its behalf. -/
structure WorkerState where
  opsExecuted : Nat
  exitSignals : Nat
  errorLogs : Nat
  retryLogs : Nat
deriving DecidableEq, Repr

def WorkerState.init : WorkerState := ⟨0, 0, 0, 0⟩

/-- The `fetch` worker loop from `main`. The list is the sequence of values
this worker pulls from `opsChan` (`none` is the nil sentinel). For each op:
run `RetryOnSocketFailure` around `exec.Execute(op)` (modelled by
`exec op attempt`), log the final error iff `verbose` and it is non-nil,
and increment the shared counter. On the sentinel: send one signal on
`exit` and stop. -/
def fetch (exec : Op → Nat → Option MgoError) (verbose : Bool) :
    List (Option Op) → WorkerState → WorkerState
  | [], s => s
  | none :: _, s => { s with exitSignals := s.exitSignals + 1 }
  | some op :: rest, s =>
    let out := retryOnSocketFailure (exec op)
    fetch exec verbose rest
      { s with
        opsExecuted := s.opsExecuted + 1,
        errorLogs := s.errorLogs +
          (if verbose && out.result.isSome then 1 else 0),
        retryLogs := s.retryLogs + out.retryLogs }

/-- The ops a worker actually executes: the prefix of its channel pulls up
to (excluding) the first nil sentinel. -/
def processed (q : List (Option Op)) : List Op :=
  (q.takeWhile Option.isSome).filterMap id

/-- An op whose final result out of `RetryOnSocketFailure` is a non-nil
error (an unrecovered op error). -/
def unrecovered (exec : Op → Nat → Option MgoError) (op : Op) : Bool :=
  (retryOnSocketFailure (exec op)).result.isSome

/-- An op whose first execution attempt fails with a non-permanent error,
triggering the refresh-and-retry path. -/
def transientFirst (exec : Op → Nat → Option MgoError) (op : Op) : Bool :=
  match exec op 0 with
  | none => false
  | some e => !e.isPermanent

theorem processed_nil : processed [] = [] := rfl

theorem processed_cons_none (rest : List (Option Op)) :
    processed (none :: rest) = [] := rfl

theorem processed_cons_some (op : Op) (rest : List (Option Op)) :
    processed (some op :: rest) = op :: processed rest := rfl

theorem retryLogs_eq_transientFirst (exec : Op → Nat → Option MgoError)
    (op : Op) :
    (retryOnSocketFailure (exec op)).retryLogs =
      (if transientFirst exec op then 1 else 0) := by
  unfold retryOnSocketFailure transientFirst
  cases h : exec op 0 with
  | none => simp
  | some e => by_cases hp : e.isPermanent <;> simp [hp]

theorem fetch_opsExecuted (exec : Op → Nat → Option MgoError)
    (verbose : Bool) (q : List (Option Op)) (s : WorkerState) :
    (fetch exec verbose q s).opsExecuted =
      s.opsExecuted + (processed q).length := by
  induction q generalizing s with
  | nil => simp [fetch, processed]
  | cons o rest ih =>
    cases o with
    | none => simp [fetch, processed]
    | some op =>
      simp only [fetch, ih, processed_cons_some, List.length_cons]
      omega

theorem fetch_exitSignals (exec : Op → Nat → Option MgoError)
    (verbose : Bool) (q : List (Option Op)) (s : WorkerState) :
    (fetch exec verbose q s).exitSignals =
      s.exitSignals + (if q.any Option.isNone then 1 else 0) := by
  induction q generalizing s with
  | nil => simp [fetch]
  | cons o rest ih =>
    cases o with
    | none => simp [fetch]
    | some op => simp [fetch, ih]

theorem fetch_errorLogs (exec : Op → Nat → Option MgoError)
    (verbose : Bool) (q : List (Option Op)) (s : WorkerState) :
    (fetch exec verbose q s).errorLogs =
      s.errorLogs +
        (if verbose then ((processed q).countP (unrecovered exec)) else 0) := by
  induction q generalizing s with
  | nil => cases verbose <;> simp [fetch, processed]
  | cons o rest ih =>
    cases o with
    | none => cases verbose <;> simp [fetch, processed]
    | some op =>
      cases verbose with
      | false => simp [fetch, ih]
      | true =>
        simp only [fetch, ih, processed_cons_some, List.countP_cons,
          unrecovered, Bool.true_and, if_true]
        by_cases hu : (retryOnSocketFailure (exec op)).result.isSome = true
        · simp only [hu, if_true]; omega
        · simp only [if_neg hu]; omega

theorem fetch_retryLogs (exec : Op → Nat → Option MgoError)
    (verbose : Bool) (q : List (Option Op)) (s : WorkerState) :
    (fetch exec verbose q s).retryLogs =
      s.retryLogs + (processed q).countP (transientFirst exec) := by
  induction q generalizing s with
  | nil => simp [fetch, processed]
  | cons o rest ih =>
    cases o with
    | none => simp [fetch, processed]
    | some op =>
      simp only [fetch, ih, processed_cons_some, List.countP_cons,
        retryLogs_eq_transientFirst]
      by_cases ht : transientFirst exec op = true
      · simp only [ht, if_true]; omega
      · simp only [if_neg ht]; omega

/-- The coordinator wait loop at the end of `main`:
`received := 0; for received < workers { <-exit; received += 1 }`.
Returns `some (received, leftover)` when the loop exits, `none` if it is
still blocked waiting on `exit` after the modelled signals run out. -/
def mainWait (workers received : Nat) : List Unit → Option (Nat × List Unit)
  | [] => if received < workers then none else some (received, [])
  | sig :: rest =>
    if received < workers then mainWait workers (received + 1) rest
    else some (received, sig :: rest)

theorem mainWait_returns (signals : List Unit) :
    ∀ workers received : Nat, received ≤ workers →
      (workers - received ≤ signals.length →
        mainWait workers received signals =
          some (workers, signals.drop (workers - received))) ∧
      (signals.length < workers - received →
        mainWait workers received signals = none) := by
  induction signals with
  | nil =>
    intro workers received hle
    refine ⟨fun h => ?_, fun h => ?_⟩
    · simp only [List.length_nil] at h
      have heq : received = workers := by omega
      subst heq
      simp [mainWait]
    · simp only [List.length_nil] at h
      have hlt : received < workers := by omega
      simp [mainWait, hlt]
  | cons sig rest ih =>
    intro workers received hle
    by_cases hlt : received < workers
    · have hrec := ih workers (received + 1) (by omega)
      refine ⟨fun h => ?_, fun h => ?_⟩
      · have h1 : workers - (received + 1) ≤ rest.length := by
          simp at h; omega
        have := hrec.1 h1
        have hdrop : (sig :: rest).drop (workers - received) =
            rest.drop (workers - (received + 1)) := by
          have h2 : workers - received = (workers - (received + 1)) + 1 := by
            omega
          simp [h2]
        simp only [mainWait, if_pos hlt, this, hdrop]
      · have h1 : rest.length < workers - (received + 1) := by
          simp at h; omega
        simp only [mainWait, if_pos hlt, hrec.2 h1]
    · have heq : received = workers := by omega
      refine ⟨fun h => ?_, fun h => ?_⟩
      · simp [mainWait, hlt, heq]
      · omega

/-- `parseFlags`'s result: the process-wide configuration after flag
validation. `loggerSet` records whether the `logger` global holds a real
logger (`NewLogger` succeeded) or was left unset by the early `return nil`
taken when `NewLogger` fails. -/
structure Config where
  style : String
  workers : Int
  maxOps : Int
  loggerSet : Bool
deriving DecidableEq, Repr

/-- `parseFlags` from `main.go`: reject a style other than "stress"/"real",
reject non-positive `workers`, replace `maxOps == 0` by `4294967295`, then
create the logger — note the Go code returns `nil` (success) even when
`NewLogger` fails (`loggerFails` models that failure). -/
def parseFlags (style : String) (workers maxOps : Int) (loggerFails : Bool) :
    Except String Config :=
  if style ≠ "stress" ∧ style ≠ "real" then
    .error ("Cannot recognize the style: " ++ style)
  else if workers ≤ 0 then
    .error "`workers` should be a positive number"
  else
    let maxOps := if maxOps = 0 then 4294967295 else maxOps
    if loggerFails then .ok ⟨style, workers, maxOps, false⟩
    else .ok ⟨style, workers, maxOps, true⟩

inductive ReaderKind where
  | fileByLine
  | cyclic
deriving DecidableEq, Repr

inductive DispatcherKind where
  | bestEffort
  | byTime
deriving DecidableEq, Repr

/-- A reader-positioning call made by `main` before dispatching starts. -/
inductive PositionStep where
  | setStartTime (t : Int)
  | skipOps (n : Int)
deriving DecidableEq, Repr

/-- The reader/dispatcher wiring `main` builds for a style. -/
structure Pipeline where
  readerKind : ReaderKind
  positioning : List PositionStep
  dispatcherKind : DispatcherKind
deriving DecidableEq, Repr

/-- The two branches of `main`'s dispatch setup: style "stress" opens a
`FileByLineOpsReader`, applies `SetStartTime` when `startTime > 0` then
`SkipOps` when `numSkipOps > 0`, and starts the best-effort dispatcher; any
other style (only "real" survives `parseFlags`) wraps the file reader in
`NewCyclicOpsReader`, applies the same two positioning calls in the same
order, and starts the by-time dispatcher. -/
def buildPipeline (style : String) (startTime numSkipOps : Int) : Pipeline :=
  if style = "stress" then
    { readerKind := .fileByLine
      positioning :=
        (if startTime > 0 then [PositionStep.setStartTime startTime] else []) ++
        (if numSkipOps > 0 then [PositionStep.skipOps numSkipOps] else [])
      dispatcherKind := .bestEffort }
  else
    { readerKind := .cyclic
      positioning :=
        (if startTime > 0 then [PositionStep.setStartTime startTime] else []) ++
        (if numSkipOps > 0 then [PositionStep.skipOps numSkipOps] else [])
      dispatcherKind := .byTime }

/-- Observable startup events of `main`, in program order. Op execution can
only happen after a `workerStarted` event, so an empty trace also means no
op was executed. -/
inductive MainEvent where
  | readerOpened (k : ReaderKind)
  | positioned (s : PositionStep)
  | dispatcherStarted (k : DispatcherKind)
  | workerStarted (id : Nat)
deriving DecidableEq, Repr

/-- The startup phase of `main`: run `parseFlags`, panic on its error
(second component `some msg`, with an empty event trace — nothing else has
run), otherwise open and position the reader, start the dispatcher, and
spawn one `fetch` goroutine per worker. -/
def mainStartup (style : String) (workers maxOps startTime numSkipOps : Int)
    (loggerFails : Bool) : List MainEvent × Option String :=
  match parseFlags style workers maxOps loggerFails with
  | .error e => ([], some e)
  | .ok cfg =>
    let p := buildPipeline style startTime numSkipOps
    ([MainEvent.readerOpened p.readerKind] ++
       p.positioning.map MainEvent.positioned ++
       [MainEvent.dispatcherStarted p.dispatcherKind] ++
       (List.range cfg.workers.toNat).map MainEvent.workerStarted,
     none)

/-- Modelled from the spec: `NewBestEffortOpsDispatcher` lives in the
external `replay` package, not in this repository's sources. The spec says
it "reads ops from the source sequentially and pushes each onto the shared
queue ... Stops after `maxOps` values have been produced or the source is
exhausted", so it delivers `min maxOps sourceLen` ops. -/
def bestEffortDispatchCount (maxOps : Int) (sourceLen : Nat) : Nat :=
  min maxOps.toNat sourceLen

/-- Modelled from the spec: `NewFileByLineOpsReader` (external `replay`
package) is a plain sequential reader — `next` yields the op under the
cursor and advances, and reports exhaustion (`none`) at end of file. -/
def fileByLineNext (source : List Op) (pos : Nat) : Option (Op × Nat) :=
  match source.get? pos with
  | some op => some (op, pos + 1)
  | none => none

/-- Modelled from the spec: `NewCyclicOpsReader` (external `replay`
package) "wraps a cyclic view over the Op Source that restarts it from the
beginning upon exhaustion" — the cursor is read modulo the source length,
so a nonempty source never reports exhaustion. -/
def cyclicNext (source : List Op) (pos : Nat) : Option (Op × Nat) :=
  match source.get? (pos % source.length) with
  | some op => some (op, pos + 1)
  | none => none

/-- An event of the reporter goroutine in `main`: a 5-second sleep or one
emitted report (one `report()` call). -/
inductive ReportEvent where
  | sleep5s
  | report
deriving DecidableEq, Repr

/-- The reporter goroutine of `main`:
`defer report(); for opsExecuted < int64(maxOps) { Sleep(5s); report() }`.
The argument list holds the successive values of `opsExecuted` read at the
loop condition; `none` means the loop never observed `maxOps` reached
within the modelled observations, so it is still running and the deferred
final report has not been emitted. -/
def reporterEvents (maxOps : Int) : List Int → Option (List ReportEvent)
  | [] => none
  | c :: rest =>
    if c < maxOps then
      (reporterEvents maxOps rest).map
        (fun evs => ReportEvent.sleep5s :: ReportEvent.report :: evs)
    else some [ReportEvent.report]

/-- `k` iterations of the reporter loop body: sleep 5 seconds, emit one
periodic report. -/
def periodicReports : Nat → List ReportEvent
  | 0 => []
  | k + 1 => ReportEvent.sleep5s :: ReportEvent.report :: periodicReports k

theorem reporterEvents_spec (maxOps : Int) (pre : List Int) (c : Int)
    (rest : List Int) (hpre : ∀ x ∈ pre, x < maxOps) (hc : maxOps ≤ c) :
    reporterEvents maxOps (pre ++ c :: rest) =
      some (periodicReports pre.length ++ [ReportEvent.report]) := by
  induction pre with
  | nil =>
    simp only [List.nil_append, reporterEvents, List.length_nil,
      periodicReports]
    rw [if_neg (by omega)]
  | cons x xs ih =>
    have hx : x < maxOps := hpre x (by simp)
    have hxs : ∀ y ∈ xs, y < maxOps := fun y hy => hpre y (by simp [hy])
    have harg : (x :: xs) ++ c :: rest = x :: (xs ++ c :: rest) := rfl
    rw [harg, reporterEvents, if_pos hx, ih hxs]
    rfl

end Flashback

namespace Flashback

/-- C1: For every op executed by a worker, if the executor block returns nil
or a recognized permanent error (an mgo QueryError, an mgo LastError, or mgo
ErrNotFound), `RetryOnSocketFailure` invokes the block exactly once,
performs no session refresh, and returns that result; for every other
non-nil error it refreshes the session exactly once, invokes the block
exactly once more, and returns the second attempt's result as final, with no
further retries. -/
theorem retry_policy (block : Nat → Option MgoError) :
    (block 0 = none →
      retryOnSocketFailure block = ⟨none, 1, 0, 0⟩) ∧
    (∀ e : MgoError, block 0 = some e → e.isPermanent = true →
      retryOnSocketFailure block = ⟨some e, 1, 0, 0⟩) ∧
    (∀ e : MgoError, block 0 = some e → e.isPermanent = false →
      retryOnSocketFailure block = ⟨block 1, 2, 1, 1⟩) := by
  refine ⟨fun h0 => ?_, fun e he hp => ?_, fun e he hp => ?_⟩
  · simp [retryOnSocketFailure, h0]
  · simp [retryOnSocketFailure, he, hp]
  · simp [retryOnSocketFailure, he, hp]

/-- Witness for C1: a concrete nil-returning block, a concrete
permanent-error block, and a concrete transient-error block, each with the
exact outcome the theorem predicts. -/
theorem retry_policy_witness :
    retryOnSocketFailure (fun _ => none) = ⟨none, 1, 0, 0⟩ ∧
    retryOnSocketFailure (fun _ => some .errNotFound) =
      ⟨some .errNotFound, 1, 0, 0⟩ ∧
    retryOnSocketFailure
        (fun n => if n = 0 then some (.other "io") else none) =
      ⟨none, 2, 1, 1⟩ := by
  refine ⟨(retry_policy (fun _ => none)).1 rfl,
    (retry_policy (fun _ => some .errNotFound)).2.1 .errNotFound rfl rfl, ?_⟩
  have h := (retry_policy
      (fun n => if n = 0 then some (.other "io") else none)).2.2
      (.other "io") rfl rfl
  simpa using h

/-- C2: For every op (non-sentinel value) a worker pulls from the shared
queue, the shared total-executed-ops counter is atomically incremented
exactly once, regardless of whether the op's execution (including any
retry) succeeded or failed; no other event increments it. In the embedding,
the worker's contribution to the counter equals the number of non-sentinel
ops it pulled before the sentinel, for every executor behaviour and
verbosity — in particular sentinels, retries, failures and exit signals
contribute nothing. -/
theorem opsExecuted_once_per_op (exec : Op → Nat → Option MgoError)
    (verbose : Bool) (q : List (Option Op)) :
    (fetch exec verbose q WorkerState.init).opsExecuted =
      (processed q).length := by
  simpa [WorkerState.init] using fetch_opsExecuted exec verbose q .init

/-- C3: Each worker sends exactly one completion signal on the exit channel
(exactly when its channel pulls contain the nil sentinel), and the
coordinator loop of `main` returns after receiving exactly N completion
signals — with at least N signals available it returns consuming exactly N
of them, and with fewer than N it never returns. -/
theorem worker_completion_and_coordinator :
    (∀ (exec : Op → Nat → Option MgoError) (verbose : Bool)
        (q : List (Option Op)),
      (fetch exec verbose q WorkerState.init).exitSignals =
        (if q.any Option.isNone then 1 else 0)) ∧
    (∀ (workers : Nat) (signals : List Unit), workers ≤ signals.length →
      mainWait workers 0 signals = some (workers, signals.drop workers)) ∧
    (∀ (workers : Nat) (signals : List Unit), signals.length < workers →
      mainWait workers 0 signals = none) := by
  refine ⟨fun exec verbose q => ?_, fun workers signals h => ?_,
    fun workers signals h => ?_⟩
  · simpa [WorkerState.init] using fetch_exitSignals exec verbose q .init
  · have := (mainWait_returns signals workers 0 (Nat.zero_le _)).1
      (by simpa using h)
    simpa using this
  · exact (mainWait_returns signals workers 0 (Nat.zero_le _)).2
      (by simpa using h)

/-- Witness for C3: a worker whose pulls are one op then the sentinel sends
exactly one completion signal; with 2 workers, the coordinator returns on
exactly 2 signals and does not return on 1. -/
theorem worker_completion_and_coordinator_witness :
    (fetch (fun _ _ => none) false [some ⟨0, 0⟩, none]
        WorkerState.init).exitSignals = 1 ∧
    mainWait 2 0 [(), ()] = some (2, []) ∧
    mainWait 2 0 [()] = none := by
  refine ⟨?_, ?_, ?_⟩
  · have h := worker_completion_and_coordinator.1 (fun _ _ => none) false
      [some ⟨0, 0⟩, none]
    simpa using h
  · have h := worker_completion_and_coordinator.2.1 2 [(), ()] (by decide)
    simpa using h
  · exact worker_completion_and_coordinator.2.2 2 [()] (by decide)

/-- Counterexample for C4: with configured `maxOps = 0`, `parseFlags` does
not leave the run unbounded — it installs the fixed cap 4294967295, and the
best-effort dispatcher then delivers only 4294967295 ops from a source of
4294967296 ops, so the entire source is not replayed. -/
theorem maxOps_zero_counterexample :
    parseFlags "stress" 1 0 false =
      Except.ok ⟨"stress", 1, 4294967295, true⟩ ∧
    bestEffortDispatchCount 4294967295 4294967296 = 4294967295 ∧
    (4294967295 : Nat) ≠ 4294967296 := by
  refine ⟨rfl, ?_, by decide⟩
  unfold bestEffortDispatchCount
  decide

/-- C4 as amended: when the configured `maxOps` is 0, `parseFlags` replaces
it by the fixed cap 4294967295 (2^32 − 1); the run is then effectively
unbounded — any source of at most 4294967295 ops is replayed in full — but
it is a fixed op limit, not a literal replay-everything guarantee. -/
theorem maxOps_zero_cap (style : String) (workers : Int) (lf : Bool)
    (srcLen : Nat) (hs : style = "stress" ∨ style = "real")
    (hw : 0 < workers) (hsrc : srcLen ≤ 4294967295) :
    ∃ cfg : Config, parseFlags style workers 0 lf = Except.ok cfg ∧
      cfg.maxOps = 4294967295 ∧
      bestEffortDispatchCount cfg.maxOps srcLen = srcLen := by
  have h1 : ¬(style ≠ "stress" ∧ style ≠ "real") := by
    rcases hs with h | h <;> simp [h]
  have hcap : bestEffortDispatchCount 4294967295 srcLen = srcLen := by
    unfold bestEffortDispatchCount
    have ht : (4294967295 : Int).toNat = 4294967295 := rfl
    rw [ht]
    omega
  unfold parseFlags
  rw [if_neg h1, if_neg (by omega)]
  cases lf with
  | false => exact ⟨⟨style, workers, 4294967295, true⟩, rfl, rfl, hcap⟩
  | true => exact ⟨⟨style, workers, 4294967295, false⟩, rfl, rfl, hcap⟩

/-- Witness for C4's amended claim at style "stress", 1 worker, a 10-op
source. -/
theorem maxOps_zero_cap_witness :
    ("stress" = "stress" ∨ "stress" = "real") ∧ (0 : Int) < 1 ∧
    (10 : Nat) ≤ 4294967295 ∧
    (∃ cfg : Config, parseFlags "stress" 1 0 false = Except.ok cfg ∧
      cfg.maxOps = 4294967295 ∧
      bestEffortDispatchCount cfg.maxOps 10 = 10) :=
  ⟨Or.inl rfl, by decide, by decide,
    maxOps_zero_cap "stress" 1 false 10 (Or.inl rfl) (by decide) (by decide)⟩

/-- C5: If the configured style is neither "stress" nor "real", or the
configured worker count is not positive, `parseFlags` returns an error and
`main` panics with an empty startup trace: no reader is opened, no
positioning call runs, no dispatcher or worker is started, hence no op is
executed — no partial execution occurs. -/
theorem invalid_config_fatal (style : String)
    (workers maxOps startTime numSkipOps : Int) (lf : Bool)
    (h : (style ≠ "stress" ∧ style ≠ "real") ∨ workers ≤ 0) :
    ∃ e, mainStartup style workers maxOps startTime numSkipOps lf =
      ([], some e) := by
  unfold mainStartup parseFlags
  by_cases h1 : style ≠ "stress" ∧ style ≠ "real"
  · rw [if_pos h1]
    exact ⟨_, rfl⟩
  · have hw : workers ≤ 0 := by tauto
    rw [if_neg h1, if_pos hw]
    exact ⟨_, rfl⟩

/-- Witness for C5: an unrecognized style and a zero worker count each
produce a panic with an empty startup trace. -/
theorem invalid_config_fatal_witness :
    (("bogus" ≠ "stress" ∧ "bogus" ≠ "real") ∨ (1 : Int) ≤ 0) ∧
    ((0 : Int) ≤ 0) ∧
    (∃ e, mainStartup "bogus" 1 5 0 0 false = ([], some e)) ∧
    (∃ e, mainStartup "stress" 0 5 0 0 false = ([], some e)) :=
  ⟨Or.inl ⟨by decide, by decide⟩, by decide,
    invalid_config_fatal "bogus" 1 5 0 0 false
      (Or.inl ⟨by decide, by decide⟩),
    invalid_config_fatal "stress" 0 5 0 0 false (Or.inr (by decide))⟩

/-- C6: while every observed value of the executed-op counter is below
`maxOps`, each loop iteration of the reporter sleeps 5 seconds and emits
one report; at the first observation reaching `maxOps` the loop exits and
the deferred `report()` emits exactly one final report (later observations
are ignored), so the reports emitted total one per below-cap observation
plus exactly one final one. -/
theorem reporter_periodic_then_one_final (maxOps : Int) (pre : List Int)
    (c : Int) (rest : List Int) (hpre : ∀ x ∈ pre, x < maxOps)
    (hc : maxOps ≤ c) :
    reporterEvents maxOps (pre ++ c :: rest) =
      some (periodicReports pre.length ++ [ReportEvent.report]) ∧
    (periodicReports pre.length ++ [ReportEvent.report]).count
        ReportEvent.report = pre.length + 1 := by
  refine ⟨reporterEvents_spec maxOps pre c rest hpre hc, ?_⟩
  rw [List.count_append]
  have hcount : ∀ k : Nat,
      (periodicReports k).count ReportEvent.report = k := by
    intro k
    induction k with
    | zero => rfl
    | succ m ih => simp [periodicReports, List.count_cons, ih]
  simp [hcount]

/-- Witness for C6: cap 5, observations 0 and 3 below the cap, then 5
reaching it (a later observation 7 is ignored): two periodic sleep+report
pairs then exactly one final report, three reports in total. -/
theorem reporter_periodic_then_one_final_witness :
    (∀ x ∈ [(0 : Int), 3], x < 5) ∧ (5 : Int) ≤ 5 ∧
    (reporterEvents 5 [0, 3, 5, 7] =
        some [ReportEvent.sleep5s, ReportEvent.report, ReportEvent.sleep5s,
          ReportEvent.report, ReportEvent.report] ∧
      [ReportEvent.sleep5s, ReportEvent.report, ReportEvent.sleep5s,
        ReportEvent.report, ReportEvent.report].count ReportEvent.report
        = 3) := by
  refine ⟨by decide, by decide, ?_⟩
  have h := reporter_periodic_then_one_final 5 [0, 3] 5 [7] (by decide)
    (by decide)
  simpa [periodicReports] using h

/-- Counterexample for C7: with verbose mode disabled, an op whose first
execution attempt fails with an unclassified (transient) error still gets a
retry notice logged — `RetryOnSocketFailure` calls `logger.Error` on the
retry path unconditionally, with no verbose check — contradicting "no retry
notice is logged" for non-verbose runs. -/
theorem retry_notice_logged_nonverbose :
    (fetch (fun _ _ => some (MgoError.other "connection reset")) false
        [some ⟨0, 0⟩, none] WorkerState.init).retryLogs = 1 := rfl

/-- C7 as amended: when verbose mode is disabled, no individual op error is
logged, but retry notices are still logged (the retry-notice log is
unconditional, independent of verbose); when verbose mode is enabled, each
unrecovered op error (the final result of `RetryOnSocketFailure`, i.e.
including the final retry's error) is logged, and each retry notice is
logged. -/
theorem verbose_gates_op_errors_not_retries
    (exec : Op → Nat → Option MgoError) (q : List (Option Op)) :
    (fetch exec false q WorkerState.init).errorLogs = 0 ∧
    (fetch exec true q WorkerState.init).errorLogs =
      (processed q).countP (unrecovered exec) ∧
    ∀ verbose : Bool, (fetch exec verbose q WorkerState.init).retryLogs =
      (processed q).countP (transientFirst exec) := by
  refine ⟨?_, ?_, fun v => ?_⟩
  · simpa [WorkerState.init] using fetch_errorLogs exec false q .init
  · simpa [WorkerState.init] using fetch_errorLogs exec true q .init
  · simpa [WorkerState.init] using fetch_retryLogs exec v q .init

/-- C8: style "stress" selects the plain file-by-line reader feeding the
best-effort dispatcher (and the plain reader reports exhaustion at end of
source, terminating the run), while style "real" selects the cyclic reader
feeding the by-time dispatcher (and the cyclic reader never exhausts a
nonempty source: past the end it serves the first op again). -/
theorem style_selects_pipeline (t n : Int) :
    ((buildPipeline "stress" t n).readerKind = ReaderKind.fileByLine ∧
      (buildPipeline "stress" t n).dispatcherKind =
        DispatcherKind.bestEffort) ∧
    ((buildPipeline "real" t n).readerKind = ReaderKind.cyclic ∧
      (buildPipeline "real" t n).dispatcherKind = DispatcherKind.byTime) ∧
    (∀ (source : List Op) (pos : Nat), source.length ≤ pos →
      fileByLineNext source pos = none) ∧
    (∀ (source : List Op) (pos : Nat), source ≠ [] →
      (cyclicNext source pos).isSome = true) ∧
    (∀ source : List Op,
      (cyclicNext source source.length).map Prod.fst =
        (cyclicNext source 0).map Prod.fst) := by
  refine ⟨?_, ?_, fun source pos h => ?_, fun source pos h => ?_,
    fun source => ?_⟩
  · constructor <;> rw [buildPipeline, if_pos rfl]
  · constructor <;> rw [buildPipeline, if_neg (by decide)]
  · unfold fileByLineNext
    rw [List.get?_len_le h]
  · unfold cyclicNext
    have hlen : 0 < source.length := List.length_pos.mpr h
    have hm : pos % source.length < source.length := Nat.mod_lt _ hlen
    rw [List.get?_eq_get hm]
    rfl
  · unfold cyclicNext
    rw [Nat.mod_self, Nat.zero_mod]
    cases h : source.get? 0 <;> simp

/-- Witness for C8: a one-op source is exhausted at position 1 by the plain
reader but still served (with the first op) at position 5 by the cyclic
reader; the pipeline selections at concrete flags. -/
theorem style_selects_pipeline_witness :
    (buildPipeline "stress" 1 2).dispatcherKind = DispatcherKind.bestEffort ∧
    (buildPipeline "real" 1 2).dispatcherKind = DispatcherKind.byTime ∧
    fileByLineNext [⟨7, 0⟩] 1 = none ∧
    (cyclicNext [⟨7, 0⟩] 5).isSome = true := by
  refine ⟨(style_selects_pipeline 1 2).1.2, (style_selects_pipeline 1 2).2.1.2,
    (style_selects_pipeline 1 2).2.2.1 [⟨7, 0⟩] 1 (by decide),
    (style_selects_pipeline 1 2).2.2.2.1 [⟨7, 0⟩] 5 (by decide)⟩

/-- C9: if `NewLogger` fails, `parseFlags` nevertheless returns nil
(success): for any valid style and positive worker count, a logger-creation
failure yields a successful configuration whose logger is left unset, so
the run proceeds. -/
theorem logger_failure_not_fatal (style : String) (workers maxOps : Int)
    (hs : style = "stress" ∨ style = "real") (hw : 0 < workers) :
    parseFlags style workers maxOps true =
      Except.ok ⟨style, workers,
        if maxOps = 0 then 4294967295 else maxOps, false⟩ := by
  have h1 : ¬(style ≠ "stress" ∧ style ≠ "real") := by
    rcases hs with h | h <;> simp [h]
  unfold parseFlags
  rw [if_neg h1, if_neg (by omega)]
  rfl

/-- Witness for C9: style "real", 3 workers, `maxOps` 0, failing logger —
startup still succeeds, with the logger unset. -/
theorem logger_failure_not_fatal_witness :
    ("real" = "stress" ∨ "real" = "real") ∧ (0 : Int) < 3 ∧
    parseFlags "real" 3 0 true =
      Except.ok ⟨"real", 3, 4294967295, false⟩ := by
  refine ⟨Or.inr rfl, by decide, ?_⟩
  have h := logger_failure_not_fatal "real" 3 0 (Or.inr rfl) (by decide)
  simpa using h

/-- C10: when both `startTime > 0` and `numSkipOps > 0` are configured,
both the stress and the real branch of `main` position the reader by
calling `SetStartTime` first and `SkipOps` second, in that fixed order. -/
theorem positioning_order (t n : Int) (ht : 0 < t) (hn : 0 < n) :
    (buildPipeline "stress" t n).positioning =
      [PositionStep.setStartTime t, PositionStep.skipOps n] ∧
    (buildPipeline "real" t n).positioning =
      [PositionStep.setStartTime t, PositionStep.skipOps n] := by
  have hb : ∀ s : String, (buildPipeline s t n).positioning =
      (if t > 0 then [PositionStep.setStartTime t] else []) ++
      (if n > 0 then [PositionStep.skipOps n] else []) := by
    intro s
    unfold buildPipeline
    by_cases h : s = "stress" <;> simp [h]
  constructor <;> rw [hb, if_pos ht, if_pos hn] <;> rfl

/-- Witness for C10: start time 1 and skip count 2 give the two-step
positioning sequence, `SetStartTime` before `SkipOps`, in both branches. -/
theorem positioning_order_witness :
    (0 : Int) < 1 ∧ (0 : Int) < 2 ∧
    (buildPipeline "stress" 1 2).positioning =
      [PositionStep.setStartTime 1, PositionStep.skipOps 2] ∧
    (buildPipeline "real" 1 2).positioning =
      [PositionStep.setStartTime 1, PositionStep.skipOps 2] :=
  ⟨by decide, by decide, (positioning_order 1 2 (by decide) (by decide)).1,
    (positioning_order 1 2 (by decide) (by decide)).2⟩

end Flashback
